import Mathlib

/-!
# ArxivConsultant - formal model of the tool-retrieval core

A shallow embedding of the repository `shruthipv96/ArxivConsultant`
(files `gui/arxiv_builder.py`, `gui/relevant_object_retreiver.py`,
`gui/arxiv_consultant.py`, `gui/global_params.py`) together with proofs
about the tool-retrieval and corpus-construction layer.

Python strings are modelled by Lean `String` with explicit `List Char`
manipulation mirroring `str.replace`, `str.split('/')[-1]`, and slicing.
External collaborators (arXiv search, PDF reading, OpenAI embedding and
LLM calls) are modelled as explicit function parameters; the persisted
storage directory is modelled as an association-list file system.
-/

namespace ArxivConsultant

/-! ## Python string primitives -/

/-- Python `s.replace(pat, repl)` for a non-empty pattern, written with
explicit fuel so that it reduces definitionally.  Scans left to right and
replaces non-overlapping occurrences. -/
def pyReplaceFuel (pat repl : List Char) : Nat → List Char → List Char
  | 0, s => s
  | _ + 1, [] => []
  | fuel + 1, c :: cs =>
    if pat.isPrefixOf (c :: cs) ∧ pat ≠ [] then
      repl ++ pyReplaceFuel pat repl fuel ((c :: cs).drop pat.length)
    else
      c :: pyReplaceFuel pat repl fuel cs

/-- Python `s.replace(pat, repl)` (for the non-empty patterns used in the
program). -/
def pyReplace (pat repl s : List Char) : List Char :=
  pyReplaceFuel pat repl s.length s

/-- Python `pat in s` (substring test). -/
def containsSub (pat : List Char) : List Char → Bool
  | [] => pat.isEmpty
  | c :: cs => pat.isPrefixOf (c :: cs) || containsSub pat cs

/-- String-level wrapper of `pyReplace`: Python `s.replace(pat, repl)`. -/
def pyReplaceStr (s pat repl : String) : String :=
  ⟨pyReplace pat.data repl.data s.data⟩

/-- Python `s[:-4]` (drop the last four characters, e.g. a `.pdf` suffix). -/
def pyTrunc4 (s : String) : String :=
  ⟨s.data.take (s.data.length - 4)⟩

/-- Python `s.split('/')[-1]` : the segment after the last slash. -/
def lastSegment (s : List Char) : List Char :=
  s.foldl (fun acc c => if c = '/' then [] else acc ++ [c]) []

/-- `entry_id.split('/')[-1].replace('.', '_')`: one character of the
dot-to-underscore sanitization. -/
def sanitizeChar (c : Char) : Char :=
  if c = '.' then '_' else c

/-- The dot-to-underscore sanitization applied to a whole segment. -/
def sanitizeSeg (s : List Char) : List Char :=
  s.map sanitizeChar


/-! ## Association lists (Python `dict`) and fallible comprehension -/

/-- Python dict lookup (`d[k]`, as an `Option` to model `KeyError`). -/
def lookupA {β : Type} (k : String) : List (String × β) → Option β
  | [] => none
  | (k', v) :: rest => if k = k' then some v else lookupA k rest

/-- Python dict insert `d[k] = v` (replaces in place, keeps insertion
order, appends fresh keys at the end). -/
def insertA {β : Type} (k : String) (v : β) : List (String × β) → List (String × β)
  | [] => [(k, v)]
  | (k', v') :: rest => if k = k' then (k, v) :: rest else (k', v') :: insertA k v rest

/-- A list comprehension whose body may raise (`None` models the raised
exception propagating out). -/
def optMap {α β : Type} (f : α → Option β) : List α → Option (List β)
  | [] => some []
  | a :: as =>
    match f a, optMap f as with
    | some b, some bs => some (b :: bs)
    | _, _ => none


/-! ## Stable descending sort (the reranking postprocessor)

`SentenceTransformerRerank` (the `node_postprocessors` entry wired in by
`create_object_retriever`) scores every candidate with a cross-encoder and
then applies Python's stable `sorted` in descending score order, keeping
the first `top_n` entries.  The scorer itself is an external model; it is
modelled as an explicit key function, and the stable descending sort is
modelled by a stable insertion sort. -/

/-- Insert one element into a list, after every strictly greater key and
before every equal-or-smaller key (the stable position for a descending
order). -/
def insertDescBy {α : Type} (key : α → Int) (x : α) : List α → List α
  | [] => [x]
  | y :: ys => if key y > key x then y :: insertDescBy key x ys else x :: y :: ys

/-- Stable descending sort by `key` (extensionally Python's
`sorted(l, key = minus key)`). -/
def sortDescBy {α : Type} (key : α → Int) : List α → List α
  | [] => []
  | x :: xs => insertDescBy key x (sortDescBy key xs)


/-! ## Data model

Chunks (llama-index nodes of a document), tools (`QueryEngineTool` with
`ToolMetadata`), per-document agents, the builder's dictionaries and the
persisted storage directory. -/

/-- A chunk (node) of one document, produced by the sentence splitter. -/
structure Chunk where
  docFile : String
  ordinal : Nat
  text : String
deriving DecidableEq, Repr

/-- `ToolMetadata`: the name and natural-language description of a tool. -/
structure ToolMeta where
  name : String
  description : String
deriving DecidableEq, Repr

/-- A persisted/in-memory `VectorStoreIndex` over a list of chunks. -/
structure VIndex where
  nodes : List Chunk
deriving DecidableEq, Repr

/-- The per-document `OpenAIAgent` built by `build_agent_per_doc`: it wraps
the (possibly loaded) vector index and a summary index over the fresh
nodes. -/
structure Agent where
  paperName : String
  vectorIndex : VIndex
  summaryNodes : List Chunk
deriving DecidableEq, Repr

/-- The query-engine payload of a tool handed to the reasoning agent.
`agentEngine` is a per-document agent, `subQuestionEngine` the
`SubQuestionQueryEngine` built per turn over a list of tools, and
`baseEngine` the per-turn `VectorStoreIndex(all_nodes)` query engine with
its `similarity_top_k`. -/
inductive Engine where
  | agentEngine : Agent → Engine
  | subQuestionEngine : List (ToolMeta × Engine) → Engine
  | baseEngine : List Chunk → Nat → Engine

/-- `QueryEngineTool`: metadata plus the wrapped engine. -/
abbrev Tool := ToolMeta × Engine

/-- The tool's metadata name. -/
def toolName (t : Tool) : String := t.1.name

/-- The tool's metadata description. -/
def toolDescription (t : Tool) : String := t.1.description

/-- Project the chunk list out of a whole-corpus (`baseEngine`) tool. -/
def baseEngineNodes : Engine → Option (List Chunk)
  | Engine.baseEngine ns _ => some ns
  | _ => none

/-- The value stored per paper in `extra_info_dict`. -/
structure PaperInfo where
  summary : String
  nodes : List Chunk
deriving DecidableEq, Repr

/-- The two dictionaries a built `ArxivBuilder` carries (`agents_dict` and
`extra_info_dict`; `build_agents` populates them with identical keys in
iteration order). -/
structure BuilderState where
  agentsDict : List (String × Agent)
  extraInfoDict : List (String × PaperInfo)
deriving DecidableEq, Repr

/-- The persisted storage root: `storage/vector/<paper_name>` holds the
persisted vector index, `storage/summary/<paper_name>_summary.pkl` the
pickled summary. -/
structure FS where
  vectorStore : List (String × VIndex)
  summaryStore : List (String × String)
deriving DecidableEq, Repr

/-! ## `arxiv_builder.py` -/

/-- Result of `PaperAgentBuilder.build_agent_per_doc`, together with the
updated storage and flags recording whether the expensive external calls
ran: `embedded` is true iff `VectorStoreIndex(nodes)` was computed (the
embedding provider was called), `extracted` iff the LLM summary extraction
query ran. -/
structure BuildDocResult where
  agent : Agent
  summary : String
  fs : FS
  embedded : Bool
  extracted : Bool
deriving DecidableEq, Repr

/-- `PaperAgentBuilder.build_agent_per_doc(nodes, paper_name)`.
`extractSummary` models the external LLM summary-extraction query over the
summary index of `nodes`. -/
def build_agent_per_doc (extractSummary : List Chunk → String)
    (nodes : List Chunk) (paper_name : String) (fs : FS) : BuildDocResult :=
  let vstep : VIndex × FS × Bool :=
    match lookupA paper_name fs.vectorStore with
    | none => (⟨nodes⟩, { fs with vectorStore := fs.vectorStore ++ [(paper_name, ⟨nodes⟩)] }, true)
    | some vi => (vi, fs, false)
  let sstep : String × FS × Bool :=
    match lookupA paper_name vstep.2.1.summaryStore with
    | none =>
      let s := extractSummary nodes
      (s, { vstep.2.1 with summaryStore := vstep.2.1.summaryStore ++ [(paper_name, s)] }, true)
    | some s => (s, vstep.2.1, false)
  { agent := ⟨paper_name, vstep.1, nodes⟩
    summary := sstep.1
    fs := sstep.2.1
    embedded := vstep.2.2
    extracted := sstep.2.2 }

/-- `PaperAgentBuilder.build_agents(folder_path, paper_lookup)`: iterate
the papers in dictionary order, read each PDF into nodes (`readNodes`
models `SimpleDirectoryReader` + `SentenceSplitter`, deterministic in the
file), and build one agent per document.  Also returns the updated storage
and the lists of paper names for which an embedding build or a summary
extraction actually ran. -/
def build_agents (extractSummary : List Chunk → String)
    (readNodes : String → List Chunk) :
    List String → FS → BuilderState × FS × List String × List String
  | [], fs => (⟨[], []⟩, fs, [], [])
  | f :: rest, fs =>
    let nodes := readNodes f
    let r := build_agent_per_doc extractSummary nodes (pyTrunc4 f) fs
    let tail := build_agents extractSummary readNodes rest r.fs
    (⟨(f, r.agent) :: tail.1.agentsDict, (f, ⟨r.summary, nodes⟩) :: tail.1.extraInfoDict⟩,
     tail.2.1,
     (if r.embedded then [pyTrunc4 f] else []) ++ tail.2.2.1,
     (if r.extracted then [pyTrunc4 f] else []) ++ tail.2.2.2)

/-- One arXiv search result (the metadata fields used by the program). -/
structure SearchResult where
  entryId : String
  title : String
deriving DecidableEq, Repr

/-- `paper.entry_id.split('/')[-1].replace('.', '_') + '.pdf'`. -/
def filenameOf (r : SearchResult) : String :=
  ⟨sanitizeSeg (lastSegment r.entryId.data) ++ ".pdf".data⟩

/-- The events of one `download_paper_and_build_agent` call: the files
downloaded from arXiv and the paper names embedded / summary-extracted. -/
structure BuildLog where
  downloads : List String
  embeds : List String
  extracts : List String
deriving DecidableEq, Repr

/-- `ArxivBuilder.download_paper_and_build_agent`: build `paper_lookup`
(downloading every search result unconditionally), then build agents for
all papers in the lookup. -/
def downloadAndBuild (extractSummary : List Chunk → String)
    (readNodes : String → List Chunk)
    (results : List SearchResult) (fs : FS) : BuilderState × FS × BuildLog :=
  let paperLookup : List (String × String) :=
    results.foldl (fun acc r => insertA (filenameOf r) r.title acc) []
  let files := paperLookup.map (fun p => p.1)
  let b := build_agents extractSummary readNodes files fs
  (b.1, b.2.1, ⟨results.map filenameOf, b.2.2.1, b.2.2.2⟩)

/-- `ArxivBuilder.get_tools`: one `QueryEngineTool` per entry of
`agents_dict`, named `tool_<file stem>` and described by the paper's
cached summary from `extra_info_dict` (`None` models the `KeyError` the
Python raises when the summary is missing). -/
def get_tools (st : BuilderState) : Option (List Tool) :=
  optMap (fun p =>
      (lookupA p.1 st.extraInfoDict).map (fun info =>
        ((⟨"tool_" ++ pyTrunc4 p.1, info.summary⟩ : ToolMeta),
         Engine.agentEngine p.2)))
    st.agentsDict

/-- `ArxivBuilder.run`: on any exception during search/download/build
(modelled by `Except.error`) return `None`; otherwise return the built
state and tools.  A `KeyError` inside `get_tools` is likewise caught. -/
def runArxiv (extractSummary : List Chunk → String)
    (readNodes : String → List Chunk)
    (search : Except String (List SearchResult)) (fs : FS) :
    Option (BuilderState × FS × BuildLog × List Tool) :=
  match search with
  | Except.error _ => none
  | Except.ok results =>
    let b := downloadAndBuild extractSummary readNodes results fs
    match get_tools b.1 with
    | some tools => some (b.1, b.2.1, b.2.2, tools)
    | none => none

/-- `ArxivConsultant` / `ConsultantUI.build_agents`: the chat session is
started iff `tools is not None` — note an empty tool list passes this
check. -/
def consultantStartsChatLoop
    (runResult : Option (BuilderState × FS × BuildLog × List Tool)) : Bool :=
  runResult.isSome

/-- All chunks of every document registered in the session. -/
def allRegisteredChunks (st : BuilderState) : List Chunk :=
  (st.extraInfoDict.map (fun p => p.2.nodes)).flatten

/-! ## `global_params.py` and `relevant_object_retreiver.py` -/

/-- `global_params.top_n_results`: number of top results to retrieve and
rerank. -/
def top_n_results : Nat := 5

/-- `RelavantObjectRetriever` together with the collaborators wired in by
`create_object_retriever`.  The object index over the per-document tools
is `allTools` (node `i` of the object index carries tool `i`);
`simSearchRaw` models the embedding-similarity ranking of the object
index's nodes for a query, of which the vector node retriever returns the
first `similarityTopK`; `crossScore` models the cross-encoder score the
rerank postprocessor assigns to a (query, node) pair. -/
structure RelavantObjectRetriever where
  allTools : List Tool
  simSearchRaw : String → List Nat
  similarityTopK : Nat
  crossScore : String → Nat → Int
  rerankTopN : Nat
  builder : BuilderState

/-- The nodes returned by `self._retriever.retrieve(query_bundle)` (the
vector node retriever with its `similarity_top_k`). -/
def candidateNodes (r : RelavantObjectRetriever) (q : String) : List Nat :=
  (r.simSearchRaw q).take r.similarityTopK

/-- The rerank postprocessor (`SentenceTransformerRerank`): stable
descending sort by cross-encoder score, truncated to `top_n`. -/
def rerankNodes (score : Nat → Int) (topN : Nat) (nodes : List Nat) : List Nat :=
  (sortDescBy score nodes).take topN

/-- The description string of the per-turn comparison tool. -/
def subQuestionDescription : String :=
  "Useful for any queries that involve comparing multiple documents. ALWAYS use this tool for comparison queries - make sure to call this tool with the original query. Do NOT use the other tools for any queries involving multiple documents."

/-- The per-turn `compare_tool` over the turn's retrieved tools: its
`SubQuestionQueryEngine` is built from exactly `tools`. -/
def subQuestionTool (tools : List Tool) : Tool :=
  (⟨"compare_tool", subQuestionDescription⟩, Engine.subQuestionEngine tools)

/-- The per-turn `base_query_engine` tool: a fresh `VectorStoreIndex` over
`allNodes` queried with `similarity_top_k=4`. -/
def baseQueryEngineTool (allNodes : List Chunk) : Tool :=
  (⟨"base_query_engine",
    "Contains the information of all the related documents in one tool"⟩,
   Engine.baseEngine allNodes 4)

/-- `tool.metadata.name.replace('tool_', '') + '.pdf'` (line 89 of
`relevant_object_retreiver.py`). -/
def reconstructPaperName (nm : String) : String :=
  pyReplaceStr nm "tool_" "" ++ ".pdf"

/-- Lines 63-70 of `relevant_object_retreiver.py`: retrieve candidate
nodes, rerank them, and map the survivors back to their tools
(`object_node_mapping.from_node`; `None` models the failure Python raises
on a node with no mapped tool). -/
def turnTools (r : RelavantObjectRetriever) (q : String) : Option (List Tool) :=
  optMap (fun i => r.allTools[i]?)
    (rerankNodes (r.crossScore q) r.rerankTopN (candidateNodes r q))

/-- Lines 88-92 of `relevant_object_retreiver.py`: reconstruct one paper
name per retrieved tool and collect `extra_info_dict[name]['nodes']`
(`None` models the `KeyError` on a missing name). -/
def turnNodeLists (r : RelavantObjectRetriever) (q : String) (tools : List Tool) :
    Option (List (List Chunk)) :=
  optMap (fun nm => (lookupA nm r.builder.extraInfoDict).map (fun info => info.nodes))
    (tools.map (fun t => reconstructPaperName (toolName t)))

/-- `RelavantObjectRetriever.retrieve(query_bundle)`.  A plain string
query is promoted to a query bundle in the source; here the query is the
string itself. -/
def retrieve (r : RelavantObjectRetriever) (q : String) : Option (List Tool) :=
  (turnTools r q).bind (fun tools =>
    (turnNodeLists r q tools).map (fun nodeLists =>
      tools ++ [subQuestionTool tools, baseQueryEngineTool nodeLists.flatten]))

/-- `create_object_retriever(builder)`: object index over
`builder.get_tools()`, vector node retriever with
`similarity_top_k=top_n_results`, rerank postprocessor with
`top_n=top_n_results`.  The external embedding ranking and cross-encoder
are passed in as functions. -/
def create_object_retriever (st : BuilderState)
    (simSearchRaw : String → List Nat) (crossScore : String → Nat → Int) :
    Option RelavantObjectRetriever :=
  (get_tools st).map (fun tools =>
    { allTools := tools
      simSearchRaw := simSearchRaw
      similarityTopK := top_n_results
      crossScore := crossScore
      rerankTopN := top_n_results
      builder := st })

/-- Two consecutive `retrieve` calls against an unchanged retriever:
`retrieve` mutates nothing, so the second call sees the same state. -/
def retrieveTwice (r : RelavantObjectRetriever) (q : String) :
    Option (List Tool) × Option (List Tool) :=
  (retrieve r q, retrieve r q)

/-! ## Concrete session instances used by the witnesses -/

/-- A chunk of the first example paper. -/
def exChunk1 : Chunk := ⟨"1111_1v1.pdf", 0, "alpha"⟩

/-- A chunk of the second example paper. -/
def exChunk2 : Chunk := ⟨"2222_2v1.pdf", 0, "beta"⟩

/-- The built agent of the first example paper. -/
def exAgent1 : Agent := ⟨"1111_1v1", ⟨[exChunk1]⟩, [exChunk1]⟩

/-- The built agent of the second example paper. -/
def exAgent2 : Agent := ⟨"2222_2v1", ⟨[exChunk2]⟩, [exChunk2]⟩

/-- A two-paper builder state. -/
def exBuilder : BuilderState :=
  ⟨[("1111_1v1.pdf", exAgent1), ("2222_2v1.pdf", exAgent2)],
   [("1111_1v1.pdf", ⟨"s1", [exChunk1]⟩), ("2222_2v1.pdf", ⟨"s2", [exChunk2]⟩)]⟩

/-- The per-document tool of the first example paper. -/
def exTool1 : Tool := (⟨"tool_1111_1v1", "s1"⟩, Engine.agentEngine exAgent1)

/-- The per-document tool of the second example paper. -/
def exTool2 : Tool := (⟨"tool_2222_2v1", "s2"⟩, Engine.agentEngine exAgent2)

/-- An embedding-similarity ranking that surfaces only object node 0. -/
def exSim : String → List Nat := fun _ => [0]

/-- A constant cross-encoder scorer. -/
def exScore : String → Nat → Int := fun _ _ => 0

/-- The retriever `create_object_retriever` wires up over `exBuilder`. -/
def exRetriever : RelavantObjectRetriever :=
  { allTools := [exTool1, exTool2]
    simSearchRaw := exSim
    similarityTopK := top_n_results
    crossScore := exScore
    rerankTopN := top_n_results
    builder := exBuilder }

/-- A retriever over an empty session (zero documents registered). -/
def exEmptyRetriever : RelavantObjectRetriever :=
  { allTools := []
    simSearchRaw := fun _ => []
    similarityTopK := top_n_results
    crossScore := exScore
    rerankTopN := top_n_results
    builder := ⟨[], []⟩ }

/-- One example arXiv search result. -/
def exResult : SearchResult := ⟨"http://arxiv.org/abs/2301.12345v1", "T"⟩

/-- Reading the downloaded PDF always yields the same chunks. -/
def exReadNodes : String → List Chunk := fun fn => [⟨fn, 0, "x"⟩]

/-- The external LLM summary extraction. -/
def exExtract : List Chunk → String := fun _ => "sum"

/-- A storage state that already persists paper `p`'s vector index and
summary. -/
def exFS : FS := ⟨[("p", ⟨[exChunk1]⟩)], [("p", "cached")]⟩





/-! ## Library lemmas about the primitives -/

theorem isPrefixOf_append_self (a b : List Char) : a.isPrefixOf (a ++ b) = true := by
  rw [ List.isPrefixOf_iff_prefix]
  exact List.prefix_append a b

theorem pyReplaceFuel_of_not_contains (pat repl : List Char)
    (fuel : Nat) (s : List Char) (h : containsSub pat s = false) :
    pyReplaceFuel pat repl fuel s = s := by
  induction fuel generalizing s with
  | zero => rfl
  | succ n ih =>
    cases s with
    | nil => rfl
    | cons c cs =>
      simp only [containsSub, Bool.or_eq_false_iff] at h
      simp only [pyReplaceFuel, h.1, Bool.false_eq_true, false_and, if_false]
      rw [ih cs h.2]

theorem pyReplace_of_not_contains (pat repl s : List Char)
    (h : containsSub pat s = false) : pyReplace pat repl s = s :=
  pyReplaceFuel_of_not_contains pat repl s.length s h

/-- Stripping a leading occurrence of a non-empty pattern which occurs
nowhere else: Python `(pat + s).replace(pat, '') == s`. -/
theorem pyReplace_strip (pat s : List Char) (hne : pat ≠ [])
    (h : containsSub pat s = false) : pyReplace pat [] (pat ++ s) = s := by
  cases pat with
  | nil => exact absurd rfl hne
  | cons p ps =>
    show pyReplaceFuel (p :: ps) [] ((p :: ps) ++ s).length ((p :: ps) ++ s) = s
    have hlen : ((p :: ps) ++ s).length = (ps ++ s).length + 1 := by
      simp [List.length_append]
    rw [hlen]
    have hpre : (p :: ps).isPrefixOf (p :: (ps ++ s)) = true :=
      isPrefixOf_append_self (p :: ps) s
    have hdrop : (p :: (ps ++ s)).drop (p :: ps).length = s :=
      List.drop_left (p :: ps) s
    show pyReplaceFuel (p :: ps) [] ((ps ++ s).length + 1) (p :: (ps ++ s)) = s
    simp only [pyReplaceFuel, hpre, hdrop, ne_eq, reduceCtorEq, not_false_eq_true,
      and_true, true_and, if_true, List.nil_append]
    exact pyReplaceFuel_of_not_contains _ _ _ _ h

/-- If a non-empty pattern occurs as a substring, its head character occurs
in the string. -/
theorem head_mem_of_containsSub (p : Char) (ps s : List Char)
    (h : containsSub (p :: ps) s = true) : p ∈ s := by
  induction s with
  | nil => simp [containsSub, List.isEmpty] at h
  | cons c cs ih =>
    simp only [containsSub, Bool.or_eq_true] at h
    rcases h with h | h
    · simp only [List.isPrefixOf, Bool.and_eq_true, beq_iff_eq] at h
      exact h.1 ▸ List.mem_cons_self c cs
    · exact List.mem_cons_of_mem c (ih h)

theorem lookupA_append_right {β : Type} (k : String) (l m : List (String × β))
    (h : lookupA k l = none) : lookupA k (l ++ m) = lookupA k m := by
  induction l with
  | nil => rfl
  | cons p rest ih =>
    obtain ⟨k', v⟩ := p
    by_cases hk : k = k'
    · simp [lookupA, hk] at h
    · simp only [lookupA, hk, if_false] at h
      simp only [List.cons_append, lookupA, hk, if_false]
      exact ih h

theorem lookupA_append_left {β : Type} (k : String) (l m : List (String × β))
    (v : β) (h : lookupA k l = some v) : lookupA k (l ++ m) = some v := by
  induction l with
  | nil => simp [lookupA] at h
  | cons p rest ih =>
    obtain ⟨k', v'⟩ := p
    by_cases hk : k = k'
    · simp only [lookupA, hk, if_true] at h
      simp [List.cons_append, lookupA, hk, h]
    · simp only [lookupA, hk, if_false] at h
      simp only [List.cons_append, lookupA, hk, if_false]
      exact ih h

theorem optMap_length {α β : Type} (f : α → Option β) (l : List α)
    (bs : List β) (h : optMap f l = some bs) : bs.length = l.length := by
  induction l generalizing bs with
  | nil => cases (Option.some.inj h : ([] : List β) = bs); rfl
  | cons a as ih =>
    simp only [optMap] at h
    cases hfa : f a with
    | none => rw [hfa] at h; simp at h
    | some b =>
      rw [hfa] at h
      cases hrest : optMap f as with
      | none => rw [hrest] at h; simp at h
      | some bs' =>
        rw [hrest] at h
        simp only [Option.some.injEq] at h
        subst h
        simp [ih bs' hrest]

theorem optMap_mem {α β : Type} (f : α → Option β) (l : List α)
    (bs : List β) (h : optMap f l = some bs) (b : β) (hb : b ∈ bs) :
    ∃ a ∈ l, f a = some b := by
  induction l generalizing bs with
  | nil => cases (Option.some.inj h : ([] : List β) = bs); simp at hb
  | cons a as ih =>
    simp only [optMap] at h
    cases hfa : f a with
    | none => rw [hfa] at h; simp at h
    | some b' =>
      rw [hfa] at h
      cases hrest : optMap f as with
      | none => rw [hrest] at h; simp at h
      | some bs' =>
        rw [hrest] at h
        simp only [Option.some.injEq] at h
        subst h
        rcases List.mem_cons.mp hb with hb | hb
        · exact ⟨a, List.mem_cons_self a as, hb ▸ hfa⟩
        · obtain ⟨a', ha', hfa'⟩ := ih bs' hrest hb
          exact ⟨a', List.mem_cons_of_mem a ha', hfa'⟩

theorem optMap_isSome {α β : Type} (f : α → Option β) (l : List α)
    (h : ∀ a ∈ l, ∃ b, f a = some b) : ∃ bs, optMap f l = some bs := by
  induction l with
  | nil => exact ⟨[], rfl⟩
  | cons a as ih =>
    obtain ⟨b, hb⟩ := h a (List.mem_cons_self a as)
    obtain ⟨bs, hbs⟩ := ih (fun a' ha' => h a' (List.mem_cons_of_mem a ha'))
    exact ⟨b :: bs, by simp [optMap, hb, hbs]⟩

theorem mem_insertDescBy {α : Type} (key : α → Int) (x a : α) (l : List α) :
    a ∈ insertDescBy key x l ↔ a = x ∨ a ∈ l := by
  induction l with
  | nil => simp [insertDescBy]
  | cons y ys ih =>
    by_cases hgt : key y > key x
    · simp only [insertDescBy, hgt, if_true, List.mem_cons, ih]
      tauto
    · simp [insertDescBy, hgt]

theorem mem_sortDescBy {α : Type} (key : α → Int) (a : α) (l : List α) :
    a ∈ sortDescBy key l ↔ a ∈ l := by
  induction l with
  | nil => simp [sortDescBy]
  | cons x xs ih =>
    simp only [sortDescBy, mem_insertDescBy, List.mem_cons, ih]

/-- Stability of the insertion step: restricted to any fixed score value,
inserting preserves order — the new element lands in front of the
equally-scored suffix elements it preceded. -/
theorem filter_insertDescBy {α : Type} (key : α → Int) (v : Int) (x : α) (l : List α) :
    (insertDescBy key x l).filter (fun a => key a == v) =
      if key x == v then x :: l.filter (fun a => key a == v)
      else l.filter (fun a => key a == v) := by
  induction l with
  | nil =>
    by_cases hx : key x = v
    · simp [insertDescBy, hx]
    · simp [insertDescBy, hx]
  | cons y ys ih =>
    by_cases hgt : key y > key x
    · simp only [insertDescBy, hgt, if_true]
      by_cases hx : key x = v
      · have hy : ¬ key y = v := by omega
        simp [List.filter_cons, hx, hy, ih]
      · simp [List.filter_cons, hx, ih]
    · simp only [insertDescBy, hgt, if_false]
      by_cases hx : key x = v
      · simp [List.filter_cons, hx]
      · simp [List.filter_cons, hx]

/-- Stability of the full sort: the subsequence of elements with any fixed
score is returned in its original order. -/
theorem filter_sortDescBy {α : Type} (key : α → Int) (v : Int) (l : List α) :
    (sortDescBy key l).filter (fun a => key a == v) =
      l.filter (fun a => key a == v) := by
  induction l with
  | nil => rfl
  | cons x xs ih =>
    simp only [sortDescBy, filter_insertDescBy, List.filter_cons]
    by_cases hx : key x = v
    · simp [hx, ih]
    · simp [hx, ih]

/-! ## Structural lemmas about `retrieve` and the builder -/

theorem retrieve_cases (r : RelavantObjectRetriever) (q : String) (res : List Tool)
    (h : retrieve r q = some res) :
    ∃ ts nds, turnTools r q = some ts ∧ turnNodeLists r q ts = some nds ∧
      res = ts ++ [subQuestionTool ts, baseQueryEngineTool nds.flatten] := by
  simp only [retrieve, Option.bind_eq_some, Option.map_eq_some'] at h
  obtain ⟨ts, h1, nds, h2, h3⟩ := h
  exact ⟨ts, nds, h1, h2, h3.symm⟩

theorem retrieve_of_stages (r : RelavantObjectRetriever) (q : String)
    (ts : List Tool) (nds : List (List Chunk))
    (h1 : turnTools r q = some ts) (h2 : turnNodeLists r q ts = some nds) :
    retrieve r q = some (ts ++ [subQuestionTool ts, baseQueryEngineTool nds.flatten]) := by
  unfold retrieve
  rw [h1, Option.some_bind, h2, Option.map_some']

/-- Every tool produced by `get_tools` is named `tool_<stem>` for an
`agents_dict` entry whose summary lookup succeeded. -/
theorem get_tools_mem (st : BuilderState) (ts : List Tool) (h : get_tools st = some ts)
    (t : Tool) (ht : t ∈ ts) :
    ∃ p ∈ st.agentsDict, ∃ info, lookupA p.1 st.extraInfoDict = some info ∧
      t = ((⟨"tool_" ++ pyTrunc4 p.1, info.summary⟩ : ToolMeta),
           Engine.agentEngine p.2) := by
  obtain ⟨p, hp, hfp⟩ := optMap_mem _ _ _ h t ht
  cases hl : lookupA p.1 st.extraInfoDict with
  | none => rw [hl] at hfp; cases hfp
  | some info =>
    rw [hl] at hfp
    simp only [Option.map_some', Option.some.injEq] at hfp
    exact ⟨p, hp, info, hl, hfp.symm⟩

/-- Truncating `stem ++ ".pdf"` by four characters recovers `stem`. -/
theorem pyTrunc4_pdf (fn : String) (stem : List Char)
    (hdata : fn.data = stem ++ ".pdf".data) : pyTrunc4 fn = ⟨stem⟩ := by
  unfold pyTrunc4
  rw [hdata]
  have h4 : ".pdf".data.length = 4 := rfl
  have hlen : (stem ++ ".pdf".data).length - 4 = stem.length := by
    simp [List.length_append, h4]
  rw [hlen]
  exact congrArg String.mk (List.take_left stem ".pdf".data)

/-- The paper-name reconstruction of `retrieve` inverts the tool naming of
`get_tools` whenever the stem contains no `tool_`. -/
theorem reconstruct_roundtrip (fn : String) (stem : List Char)
    (hdata : fn.data = stem ++ ".pdf".data)
    (hno : containsSub "tool_".data stem = false) :
    reconstructPaperName ("tool_" ++ pyTrunc4 fn) = fn := by
  rw [pyTrunc4_pdf fn stem hdata]
  unfold reconstructPaperName pyReplaceStr
  have hdat : ("tool_" ++ String.mk stem).data = "tool_".data ++ stem := rfl
  rw [hdat]
  have hrep : pyReplace "tool_".data "".data ("tool_".data ++ stem) = stem :=
    pyReplace_strip "tool_".data stem (by decide) hno
  rw [hrep]
  apply String.ext
  show stem ++ ".pdf".data = fn.data
  exact hdata.symm

/-- A name of the form `tool_<x>` is never the name of either synthesized
tool. -/
theorem toolPrefix_ne (x : String) :
    ("tool_" ++ x : String) ≠ "compare_tool" ∧
    ("tool_" ++ x : String) ≠ "base_query_engine" := by
  constructor <;> intro h <;>
    · have hd := congrArg String.data h
      have hx : ("tool_" ++ x : String).data = 't' :: ('o' :: 'o' :: 'l' :: '_' :: x.data) := rfl
      rw [hx] at hd
      injection hd with h1 _
      exact absurd h1 (by decide)

/-- Sanitized arXiv-id segments (digits, dots, a version letter) never
contain `tool_`. -/
theorem sanitize_no_tool (seg : List Char)
    (hc : ∀ c ∈ seg, c.isDigit ∨ c = '.' ∨ c = 'v') :
    containsSub "tool_".data (sanitizeSeg seg) = false := by
  by_contra hcon
  have htrue : containsSub "tool_".data (sanitizeSeg seg) = true := by
    revert hcon
    cases containsSub "tool_".data (sanitizeSeg seg) <;> simp
  have hpat : "tool_".data = 't' :: "ool_".data := rfl
  rw [hpat] at htrue
  have hmem := head_mem_of_containsSub 't' "ool_".data (sanitizeSeg seg) htrue
  unfold sanitizeSeg at hmem
  obtain ⟨c, hcs, hct⟩ := List.mem_map.mp hmem
  rcases hc c hcs with hd | hdot | hv
  · unfold sanitizeChar at hct
    by_cases hcd : c = '.'
    · rw [if_pos hcd] at hct; exact absurd hct (by decide)
    · rw [if_neg hcd] at hct
      rw [hct] at hd
      exact absurd hd (by decide)
  · rw [hdot] at hct
    exact absurd hct (by decide)
  · rw [hv] at hct
    exact absurd hct (by decide)

/-- Resolving a retrieved tool back to its paper: the reconstructed name
is the originating filename and its `extra_info_dict` lookup succeeds. -/
theorem get_tools_lookup (st : BuilderState) (ts : List Tool) (h : get_tools st = some ts)
    (hfn : ∀ p ∈ st.agentsDict, ∃ stem, p.1.data = stem ++ ".pdf".data ∧
        containsSub "tool_".data stem = false)
    (t : Tool) (ht : t ∈ ts) :
    ∃ fn info, lookupA fn st.extraInfoDict = some info ∧
      reconstructPaperName (toolName t) = fn ∧
      (∃ x : String, toolName t = "tool_" ++ x) := by
  obtain ⟨p, hp, info, hl, hteq⟩ := get_tools_mem st ts h t ht
  obtain ⟨stem, hdata, hno⟩ := hfn p hp
  refine ⟨p.1, info, hl, ?_, ⟨pyTrunc4 p.1, by rw [hteq]; rfl⟩⟩
  rw [hteq]
  show reconstructPaperName ("tool_" ++ pyTrunc4 p.1) = p.1
  exact reconstruct_roundtrip p.1 stem hdata hno

/-! ## Persistence lemmas about the builder -/

/-- When both persisted artifacts exist, `build_agent_per_doc` is a pure
load: the stored index and summary are returned, the storage is untouched,
and neither the embedding build nor the summary extraction runs. -/
theorem build_agent_per_doc_cached (extract : List Chunk → String)
    (nodes : List Chunk) (name : String) (fs : FS) (vi : VIndex) (s : String)
    (hv : lookupA name fs.vectorStore = some vi)
    (hs : lookupA name fs.summaryStore = some s) :
    build_agent_per_doc extract nodes name fs = ⟨⟨name, vi, nodes⟩, s, fs, false, false⟩ := by
  unfold build_agent_per_doc
  rw [hv]
  simp only
  rw [hs]

/-- Existing storage entries survive `build_agent_per_doc` (it only ever
appends fresh keys). -/
theorem build_agent_per_doc_mono (extract : List Chunk → String)
    (nodes : List Chunk) (name : String) (fs : FS) (k : String) :
    (∀ vi, lookupA k fs.vectorStore = some vi →
      lookupA k (build_agent_per_doc extract nodes name fs).fs.vectorStore = some vi) ∧
    (∀ s, lookupA k fs.summaryStore = some s →
      lookupA k (build_agent_per_doc extract nodes name fs).fs.summaryStore = some s) := by
  unfold build_agent_per_doc
  cases hv : lookupA name fs.vectorStore <;> cases hs : lookupA name fs.summaryStore <;>
    simp only <;> rw [hs] <;> constructor <;> intro x hx <;>
    simp only <;>
    first
      | exact hx
      | exact lookupA_append_left _ _ _ _ hx

/-- After `build_agent_per_doc`, the storage holds exactly the returned
vector index and summary under the paper's name. -/
theorem build_agent_per_doc_stores (extract : List Chunk → String)
    (nodes : List Chunk) (name : String) (fs : FS) :
    lookupA name (build_agent_per_doc extract nodes name fs).fs.vectorStore =
      some (build_agent_per_doc extract nodes name fs).agent.vectorIndex ∧
    lookupA name (build_agent_per_doc extract nodes name fs).fs.summaryStore =
      some (build_agent_per_doc extract nodes name fs).summary := by
  unfold build_agent_per_doc
  cases hv : lookupA name fs.vectorStore <;> cases hs : lookupA name fs.summaryStore <;>
    simp only <;> rw [hs] <;> simp only <;> constructor
  · rw [lookupA_append_right _ _ _ hv]; simp [lookupA]
  · rw [lookupA_append_right _ _ _ hs]; simp [lookupA]
  · rw [lookupA_append_right _ _ _ hv]; simp [lookupA]
  · exact hs
  · exact hv
  · rw [lookupA_append_right _ _ _ hs]; simp [lookupA]
  · exact hv
  · exact hs

/-- The agent returned by `build_agent_per_doc` always carries the paper
name and the freshly read nodes. -/
theorem build_agent_per_doc_agent (extract : List Chunk → String)
    (nodes : List Chunk) (name : String) (fs : FS) :
    (build_agent_per_doc extract nodes name fs).agent =
      ⟨name, (build_agent_per_doc extract nodes name fs).agent.vectorIndex, nodes⟩ := by
  unfold build_agent_per_doc
  cases lookupA name fs.vectorStore <;> cases lookupA name fs.summaryStore <;> rfl

/-- Existing storage entries survive a whole `build_agents` pass. -/
theorem build_agents_mono (extract : List Chunk → String)
    (readNodes : String → List Chunk) (files : List String) :
    ∀ (fs : FS) (k : String),
      (∀ vi, lookupA k fs.vectorStore = some vi →
        lookupA k (build_agents extract readNodes files fs).2.1.vectorStore = some vi) ∧
      (∀ s, lookupA k fs.summaryStore = some s →
        lookupA k (build_agents extract readNodes files fs).2.1.summaryStore = some s) := by
  induction files with
  | nil => intro fs k; exact ⟨fun vi h => h, fun s h => h⟩
  | cons f rest ih =>
    intro fs k
    constructor
    · intro vi h
      exact (ih _ k).1 vi
        ((build_agent_per_doc_mono extract (readNodes f) (pyTrunc4 f) fs k).1 vi h)
    · intro s h
      exact (ih _ k).2 s
        ((build_agent_per_doc_mono extract (readNodes f) (pyTrunc4 f) fs k).2 s h)

/-- Running `build_agents` a second time over storage produced by a first
run rebuilds nothing: it returns the same dictionaries and storage and
performs zero embedding builds and zero summary extractions. -/
theorem build_agents_idempotent (extract : List Chunk → String)
    (readNodes : String → List Chunk) (files : List String) :
    ∀ fs : FS,
      build_agents extract readNodes files (build_agents extract readNodes files fs).2.1 =
        ((build_agents extract readNodes files fs).1,
         (build_agents extract readNodes files fs).2.1, [], []) := by
  induction files with
  | nil => intro fs; rfl
  | cons f rest ih =>
    intro fs
    have hstores := build_agent_per_doc_stores extract (readNodes f) (pyTrunc4 f) fs
    set r1 := build_agent_per_doc extract (readNodes f) (pyTrunc4 f) fs with hr1
    set T1 := build_agents extract readNodes rest r1.fs with hT1
    have hmono := build_agents_mono extract readNodes rest r1.fs (pyTrunc4 f)
    have hv1 : lookupA (pyTrunc4 f) T1.2.1.vectorStore = some r1.agent.vectorIndex :=
      hmono.1 _ hstores.1
    have hs1 : lookupA (pyTrunc4 f) T1.2.1.summaryStore = some r1.summary :=
      hmono.2 _ hstores.2
    have hagent := build_agent_per_doc_agent extract (readNodes f) (pyTrunc4 f) fs
    have hcached := build_agent_per_doc_cached extract (readNodes f) (pyTrunc4 f)
      T1.2.1 r1.agent.vectorIndex r1.summary hv1 hs1
    have ih1 := ih r1.fs
    rw [← hT1] at ih1
    have hfirst : build_agents extract readNodes (f :: rest) fs =
        (⟨(f, r1.agent) :: T1.1.agentsDict,
          (f, ⟨r1.summary, readNodes f⟩) :: T1.1.extraInfoDict⟩,
         T1.2.1,
         (if r1.embedded then [pyTrunc4 f] else []) ++ T1.2.2.1,
         (if r1.extracted then [pyTrunc4 f] else []) ++ T1.2.2.2) := rfl
    have hsecond : build_agents extract readNodes (f :: rest) T1.2.1 =
        (⟨(f, (build_agent_per_doc extract (readNodes f) (pyTrunc4 f) T1.2.1).agent) ::
            (build_agents extract readNodes rest
              (build_agent_per_doc extract (readNodes f) (pyTrunc4 f) T1.2.1).fs).1.agentsDict,
          (f, ⟨(build_agent_per_doc extract (readNodes f) (pyTrunc4 f) T1.2.1).summary,
               readNodes f⟩) ::
            (build_agents extract readNodes rest
              (build_agent_per_doc extract (readNodes f) (pyTrunc4 f) T1.2.1).fs).1.extraInfoDict⟩,
         (build_agents extract readNodes rest
           (build_agent_per_doc extract (readNodes f) (pyTrunc4 f) T1.2.1).fs).2.1,
         (if (build_agent_per_doc extract (readNodes f) (pyTrunc4 f) T1.2.1).embedded
            then [pyTrunc4 f] else []) ++
           (build_agents extract readNodes rest
             (build_agent_per_doc extract (readNodes f) (pyTrunc4 f) T1.2.1).fs).2.2.1,
         (if (build_agent_per_doc extract (readNodes f) (pyTrunc4 f) T1.2.1).extracted
            then [pyTrunc4 f] else []) ++
           (build_agents extract readNodes rest
             (build_agent_per_doc extract (readNodes f) (pyTrunc4 f) T1.2.1).fs).2.2.2) := rfl
    rw [hfirst]
    show build_agents extract readNodes (f :: rest) T1.2.1 = _
    rw [hsecond, hcached]
    simp only [ih1, ← hagent, if_false, List.nil_append, Bool.false_eq_true]

/-! ## The claims -/

/-- C3 counterexample: in `create_object_retriever` the similarity-search
breadth K (`similarity_top_k`) and the reranker's final top-N (`top_n`)
are both wired to `top_n_results = 5`, so K is not strictly larger than
N. -/
theorem claim3_counterexample :
    create_object_retriever exBuilder exSim exScore = some exRetriever ∧
    exRetriever.similarityTopK = 5 ∧ exRetriever.rerankTopN = 5 ∧
    ¬ exRetriever.similarityTopK > exRetriever.rerankTopN :=
  ⟨rfl, rfl, rfl, by decide⟩

/-- C3 (amended): the similarity search fetches exactly K = N =
`top_n_results` candidate entries — the same number the reranker keeps —
so reranking can reorder the candidates but has no extra breadth to
discard from. -/
theorem claim3_breadth_eq_topn (st : BuilderState) (f : String → List Nat)
    (g : String → Nat → Int) (r : RelavantObjectRetriever)
    (h : create_object_retriever st f g = some r) :
    r.similarityTopK = r.rerankTopN ∧ r.rerankTopN = top_n_results := by
  unfold create_object_retriever at h
  cases hg : get_tools st with
  | none => rw [hg] at h; cases h
  | some ts =>
    rw [hg] at h
    simp only [Option.map_some', Option.some.injEq] at h
    rw [← h]
    exact ⟨rfl, rfl⟩

/-- C3 witness. -/
theorem claim3_witness :
    exRetriever.similarityTopK = exRetriever.rerankTopN ∧
    exRetriever.rerankTopN = top_n_results :=
  claim3_breadth_eq_topn exBuilder exSim exScore exRetriever rfl

/-- C4 counterexample: with zero documents registered, `retrieve` does not
fail — it returns the degenerate two-tool list (a comparison tool over an
empty tool list and a whole-corpus tool over an empty chunk list). -/
theorem claim4_counterexample :
    retrieve exEmptyRetriever "any query" =
      some [subQuestionTool [], baseQueryEngineTool []] ∧
    (retrieve exEmptyRetriever "any query").isSome = true :=
  ⟨rfl, rfl⟩

/-- C4 (amended): when zero documents are registered (empty tool index,
empty registry, empty similarity result), `retrieve` has no fail-fast
guard; it succeeds and returns exactly the comparison tool over the empty
tool list followed by the whole-corpus tool over the empty chunk list. -/
theorem claim4_empty_corpus (r : RelavantObjectRetriever) (q : String)
    (hA : r.allTools = []) (hB : r.builder.extraInfoDict = [])
    (hS : r.simSearchRaw q = []) :
    retrieve r q = some [subQuestionTool [], baseQueryEngineTool []] := by
  have h1 : turnTools r q = some [] := by
    simp [turnTools, rerankNodes, candidateNodes, hS, sortDescBy, List.take_nil, optMap]
  have h2 : turnNodeLists r q [] = some [] := rfl
  simpa using retrieve_of_stages r q [] [] h1 h2

/-- C4 witness. -/
theorem claim4_witness :
    retrieve exEmptyRetriever "q2" = some [subQuestionTool [], baseQueryEngineTool []] :=
  claim4_empty_corpus exEmptyRetriever "q2" rfl rfl rfl

/-- C5: when the arXiv search raises no exception but yields zero results,
`ArxivBuilder.run` returns an *empty list* of tools — not `None` — so the
caller's `tools is not None` check passes and the chat session is started
over an empty tool set, contrary to the claimed retry prompt. -/
theorem claim5_zero_results (extract : List Chunk → String)
    (readNodes : String → List Chunk) (fs : FS) :
    runArxiv extract readNodes (Except.ok []) fs =
      some (⟨[], []⟩, fs, ⟨[], [], []⟩, []) ∧
    consultantStartsChatLoop (runArxiv extract readNodes (Except.ok []) fs) = true := by
  refine ⟨rfl, ?_⟩
  rfl

/-- C8: per-document building is idempotent with respect to persisted
state — an existing vector index is loaded (no embedding build, storage
untouched) and an existing summary pickle is loaded (no re-extraction,
storage untouched). -/
theorem claim8_idempotent_build (extract : List Chunk → String) (nodes : List Chunk)
    (name : String) (fs : FS) :
    (∀ vi, lookupA name fs.vectorStore = some vi →
      (build_agent_per_doc extract nodes name fs).agent.vectorIndex = vi ∧
      (build_agent_per_doc extract nodes name fs).embedded = false ∧
      (build_agent_per_doc extract nodes name fs).fs.vectorStore = fs.vectorStore) ∧
    (∀ s, lookupA name fs.summaryStore = some s →
      (build_agent_per_doc extract nodes name fs).summary = s ∧
      (build_agent_per_doc extract nodes name fs).extracted = false ∧
      (build_agent_per_doc extract nodes name fs).fs.summaryStore = fs.summaryStore) := by
  constructor
  · intro vi hv
    unfold build_agent_per_doc
    rw [hv]
    dsimp only
    cases hs : lookupA name fs.summaryStore <;> exact ⟨rfl, rfl, rfl⟩
  · intro s hs
    unfold build_agent_per_doc
    cases hv : lookupA name fs.vectorStore <;> dsimp only <;> rw [hs] <;>
      exact ⟨rfl, rfl, rfl⟩

/-- C8 witness: on a storage that persists paper `p`, building with fresh
(different) nodes loads the stored index and summary and touches
nothing. -/
theorem claim8_witness :
    (build_agent_per_doc exExtract [exChunk2] "p" exFS).agent.vectorIndex = ⟨[exChunk1]⟩ ∧
    (build_agent_per_doc exExtract [exChunk2] "p" exFS).embedded = false ∧
    (build_agent_per_doc exExtract [exChunk2] "p" exFS).summary = "cached" ∧
    (build_agent_per_doc exExtract [exChunk2] "p" exFS).extracted = false := by
  have h := claim8_idempotent_build exExtract [exChunk2] "p" exFS
  obtain ⟨h1, h2, _⟩ := h.1 ⟨[exChunk1]⟩ rfl
  obtain ⟨h3, h4, _⟩ := h.2 "cached" rfl
  exact ⟨h1, h2, h3, h4⟩

/-- C9 counterexample: running corpus construction a second time over the
storage left by the first run still downloads the paper again
(`download_pdf` is unconditional), refuting the no-re-fetch claim — even
though the second run performs no embedding build and no summary
extraction. -/
theorem claim9_counterexample :
    (downloadAndBuild exExtract exReadNodes [exResult] ⟨[], []⟩).2.2 =
      ⟨["2301_12345v1.pdf"], ["2301_12345v1"], ["2301_12345v1"]⟩ ∧
    (downloadAndBuild exExtract exReadNodes [exResult]
        (downloadAndBuild exExtract exReadNodes [exResult] ⟨[], []⟩).2.1).2.2 =
      ⟨["2301_12345v1.pdf"], [], []⟩ ∧
    (["2301_12345v1.pdf"] : List String) ≠ [] :=
  ⟨rfl, rfl, by decide⟩

/-- C9 (amended): a second corpus-construction run over already-persisted
storage performs zero embedding builds and zero summary extractions and
reproduces the identical builder state (hence identical per-document
tools, same names and descriptions) — but it re-downloads every document,
because `download_pdf` is called unconditionally. -/
theorem claim9_second_run (extract : List Chunk → String)
    (readNodes : String → List Chunk) (results : List SearchResult) (fs : FS) :
    downloadAndBuild extract readNodes results
        (downloadAndBuild extract readNodes results fs).2.1 =
      ((downloadAndBuild extract readNodes results fs).1,
       (downloadAndBuild extract readNodes results fs).2.1,
       ⟨results.map filenameOf, [], []⟩) ∧
    get_tools (downloadAndBuild extract readNodes results
        (downloadAndBuild extract readNodes results fs).2.1).1 =
      get_tools (downloadAndBuild extract readNodes results fs).1 := by
  set files := (results.foldl (fun acc r => insertA (filenameOf r) r.title acc) []).map
    (fun p => p.1) with hfiles
  have hdb : ∀ g : FS, downloadAndBuild extract readNodes results g =
      ((build_agents extract readNodes files g).1,
       (build_agents extract readNodes files g).2.1,
       ⟨results.map filenameOf, (build_agents extract readNodes files g).2.2.1,
        (build_agents extract readNodes files g).2.2.2⟩) := fun g => rfl
  have key := build_agents_idempotent extract readNodes files fs
  constructor
  · rw [hdb fs]
    rw [hdb]
    simp only
    rw [key]
  · rw [hdb fs]
    rw [hdb]
    simp only
    rw [key]

/-- C2 counterexample: two documents are registered but only document 1's
tool is retrieved on this turn; the whole-corpus tool is then built over
document 1's chunks only — not over the union of all registered chunks. -/
theorem claim2_counterexample :
    retrieve exRetriever "q" =
      some [exTool1, subQuestionTool [exTool1], baseQueryEngineTool [exChunk1]] ∧
    allRegisteredChunks exRetriever.builder = [exChunk1, exChunk2] ∧
    ([exChunk1] : List Chunk) ≠ [exChunk1, exChunk2] :=
  ⟨rfl, rfl, by decide⟩

/-- C2 (amended): the whole-corpus (`base_query_engine`) tool of a turn is
built over the union of the chunks of exactly the documents whose tools
were retrieved and survived reranking on that turn — not over all
documents ever registered. -/
theorem claim2_base_tool_nodes (r : RelavantObjectRetriever) (q : String)
    (res : List Tool) (h : retrieve r q = some res) :
    ∃ ts nds, turnTools r q = some ts ∧ turnNodeLists r q ts = some nds ∧
      res.getLast? = some (baseQueryEngineTool nds.flatten) ∧
      baseEngineNodes (baseQueryEngineTool nds.flatten).2 = some nds.flatten := by
  obtain ⟨ts, nds, h1, h2, h3⟩ := retrieve_cases r q res h
  refine ⟨ts, nds, h1, h2, ?_, rfl⟩
  rw [h3]
  rw [show ts ++ [subQuestionTool ts, baseQueryEngineTool nds.flatten] =
      (ts ++ [subQuestionTool ts]) ++ [baseQueryEngineTool nds.flatten] by
    simp]
  exact List.getLast?_concat _

/-- C2 witness. -/
theorem claim2_witness :
    ∃ ts nds, turnTools exRetriever "q" = some ts ∧
      turnNodeLists exRetriever "q" ts = some nds ∧
      ([exTool1, subQuestionTool [exTool1],
        baseQueryEngineTool [exChunk1]] : List Tool).getLast? =
        some (baseQueryEngineTool nds.flatten) ∧
      baseEngineNodes (baseQueryEngineTool nds.flatten).2 = some nds.flatten :=
  claim2_base_tool_nodes exRetriever "q"
    [exTool1, subQuestionTool [exTool1], baseQueryEngineTool [exChunk1]] rfl

/-- C6: whenever `retrieve` succeeds, the comparison tool's sub-question
engine is built from exactly the per-document tools retrieved and
surviving reranking on that turn — no more, no fewer. -/
theorem claim6_compare_tool (r : RelavantObjectRetriever) (q : String)
    (res : List Tool) (h : retrieve r q = some res) :
    ∃ ts nds, turnTools r q = some ts ∧ turnNodeLists r q ts = some nds ∧
      res = ts ++ [((⟨"compare_tool", subQuestionDescription⟩ : ToolMeta),
                    Engine.subQuestionEngine ts),
                   baseQueryEngineTool nds.flatten] := by
  obtain ⟨ts, nds, h1, h2, h3⟩ := retrieve_cases r q res h
  exact ⟨ts, nds, h1, h2, h3⟩

/-- C6 witness. -/
theorem claim6_witness :
    ∃ ts nds, turnTools exRetriever "q" = some ts ∧
      turnNodeLists exRetriever "q" ts = some nds ∧
      ([exTool1, subQuestionTool [exTool1],
        baseQueryEngineTool [exChunk1]] : List Tool) =
        ts ++ [((⟨"compare_tool", subQuestionDescription⟩ : ToolMeta),
                Engine.subQuestionEngine ts),
               baseQueryEngineTool nds.flatten] :=
  claim6_compare_tool exRetriever "q"
    [exTool1, subQuestionTool [exTool1], baseQueryEngineTool [exChunk1]] rfl

/-- C7: `retrieve` reads but never writes the retriever state, so two
consecutive calls with an unchanged tool index and query return the same
result; and the rerank step is tie-stable — the candidates carrying any
fixed reranked score appear in the reranked output as a prefix of the
equal-score subsequence of the original similarity-search order, i.e. in
their original relative order. -/
theorem claim7_determinism_ties (r : RelavantObjectRetriever) (q : String) (v : Int) :
    (retrieveTwice r q).1 = (retrieveTwice r q).2 ∧
    ∃ rest,
      (rerankNodes (r.crossScore q) r.rerankTopN (candidateNodes r q)).filter
          (fun i => r.crossScore q i == v) ++ rest =
        (candidateNodes r q).filter (fun i => r.crossScore q i == v) := by
  refine ⟨rfl, ?_⟩
  refine ⟨((sortDescBy (r.crossScore q) (candidateNodes r q)).drop r.rerankTopN).filter
    (fun i => r.crossScore q i == v), ?_⟩
  have h1 : rerankNodes (r.crossScore q) r.rerankTopN (candidateNodes r q) =
      (sortDescBy (r.crossScore q) (candidateNodes r q)).take r.rerankTopN := rfl
  rw [h1, ← List.filter_append, List.take_append_drop]
  exact filter_sortDescBy (r.crossScore q) v (candidateNodes r q)

/-- The example builder's filenames all end in `.pdf` with no `tool_` in
the stem. -/
theorem exBuilder_filenames : ∀ p ∈ exBuilder.agentsDict, ∃ stem,
    p.1.data = stem ++ ".pdf".data ∧ containsSub "tool_".data stem = false := by
  intro p hp
  have hp' : p ∈ [("1111_1v1.pdf", exAgent1), ("2222_2v1.pdf", exAgent2)] := hp
  rcases List.mem_cons.mp hp' with rfl | hp2
  · exact ⟨"1111_1v1".data, by decide, by decide⟩
  · rcases List.mem_cons.mp hp2 with rfl | hp3
    · exact ⟨"2222_2v1".data, by decide, by decide⟩
    · exact absurd hp3 (List.not_mem_nil p)

/-- The example similarity search only returns indices of the example
tool index. -/
theorem exRetriever_sim_bound :
    ∀ i ∈ exRetriever.simSearchRaw "q", i < exRetriever.allTools.length := by
  intro i hi
  have hi' : i ∈ [0] := hi
  rcases List.mem_singleton.mp hi' with rfl
  show 0 < ([exTool1, exTool2] : List Tool).length
  simp

/-- C1: for every session and query — with the collaborators wired as in
`create_object_retriever` (the object index holds `get_tools`'s tools and
the similarity search returns nodes of that index) and filenames of the
shape `<stem>.pdf` with no `tool_` inside the stem (as arXiv-derived names
are) — `retrieve` returns the reranked per-document tools followed by
exactly one comparison tool and then exactly one whole-corpus tool, so the
result has at most `rerankTopN + 2` elements and each synthesized tool
occurs exactly once. -/
theorem claim1_retrieve_shape (r : RelavantObjectRetriever) (q : String)
    (hw : get_tools r.builder = some r.allTools)
    (hidx : ∀ i ∈ r.simSearchRaw q, i < r.allTools.length)
    (hfn : ∀ p ∈ r.builder.agentsDict, ∃ stem, p.1.data = stem ++ ".pdf".data ∧
        containsSub "tool_".data stem = false) :
    ∃ ts nds,
      retrieve r q = some (ts ++ [subQuestionTool ts, baseQueryEngineTool nds]) ∧
      ts.length ≤ r.rerankTopN ∧
      (ts ++ [subQuestionTool ts, baseQueryEngineTool nds]).length ≤ r.rerankTopN + 2 ∧
      ((ts ++ [subQuestionTool ts, baseQueryEngineTool nds]).filter
          (fun t => toolName t == "compare_tool")).length = 1 ∧
      ((ts ++ [subQuestionTool ts, baseQueryEngineTool nds]).filter
          (fun t => toolName t == "base_query_engine")).length = 1 := by
  have hmem : ∀ i ∈ rerankNodes (r.crossScore q) r.rerankTopN (candidateNodes r q),
      i < r.allTools.length := by
    intro i hi
    have h1 : i ∈ sortDescBy (r.crossScore q) (candidateNodes r q) :=
      List.mem_of_mem_take hi
    have h2 : i ∈ candidateNodes r q := (mem_sortDescBy _ _ _).mp h1
    exact hidx i (List.mem_of_mem_take h2)
  obtain ⟨ts, hts⟩ : ∃ ts, turnTools r q = some ts := by
    apply optMap_isSome
    intro i hi
    exact ⟨r.allTools.get ⟨i, hmem i hi⟩, List.getElem_eq_iff.mp rfl⟩
  have htools : ∀ t ∈ ts, t ∈ r.allTools := by
    intro t ht
    obtain ⟨i, _, hfi⟩ := optMap_mem _ _ _ hts t ht
    exact List.getElem?_mem hfi
  obtain ⟨ndsl, hnds⟩ : ∃ ndsl, turnNodeLists r q ts = some ndsl := by
    apply optMap_isSome
    intro nm hnm
    obtain ⟨t, ht, hne⟩ := List.mem_map.mp hnm
    obtain ⟨fn, info, hlf, hre, _⟩ :=
      get_tools_lookup r.builder r.allTools hw hfn t (htools t ht)
    refine ⟨info.nodes, ?_⟩
    rw [← hne, hre, hlf]
    rfl
  have hlts : ts.length ≤ r.rerankTopN := by
    rw [optMap_length _ _ _ hts]
    exact List.length_take_le _ _
  have hname : ∀ t ∈ ts, (toolName t == "compare_tool") = false ∧
      (toolName t == "base_query_engine") = false := by
    intro t ht
    obtain ⟨fn, info, _, _, x, hx⟩ :=
      get_tools_lookup r.builder r.allTools hw hfn t (htools t ht)
    constructor
    · exact beq_eq_false_iff_ne.mpr (hx ▸ (toolPrefix_ne x).1)
    · exact beq_eq_false_iff_ne.mpr (hx ▸ (toolPrefix_ne x).2)
  have hfc : ts.filter (fun t => toolName t == "compare_tool") = [] :=
    List.filter_eq_nil_iff.mpr (fun t ht => by simp [(hname t ht).1])
  have hfb : ts.filter (fun t => toolName t == "base_query_engine") = [] :=
    List.filter_eq_nil_iff.mpr (fun t ht => by simp [(hname t ht).2])
  refine ⟨ts, ndsl.flatten, retrieve_of_stages r q ts ndsl hts hnds, hlts, ?_, ?_, ?_⟩
  · simp only [List.length_append, List.length_cons, List.length_nil]
    omega
  · rw [List.filter_append, hfc]
    rfl
  · rw [List.filter_append, hfb]
    rfl

/-- C1 witness. -/
theorem claim1_witness :
    ∃ ts nds,
      retrieve exRetriever "q" =
        some (ts ++ [subQuestionTool ts, baseQueryEngineTool nds]) ∧
      ts.length ≤ exRetriever.rerankTopN ∧
      (ts ++ [subQuestionTool ts, baseQueryEngineTool nds]).length ≤
        exRetriever.rerankTopN + 2 ∧
      ((ts ++ [subQuestionTool ts, baseQueryEngineTool nds]).filter
          (fun t => toolName t == "compare_tool")).length = 1 ∧
      ((ts ++ [subQuestionTool ts, baseQueryEngineTool nds]).filter
          (fun t => toolName t == "base_query_engine")).length = 1 :=
  claim1_retrieve_shape exRetriever "q" rfl exRetriever_sim_bound exBuilder_filenames

/-- C10: inside `retrieve`, stripping `tool_` from a tool's name and
appending `.pdf` exactly inverts the naming `get_tools` performs whenever
the filename stem contains no occurrence of `tool_`, so the chunk lookup
in `extra_info_dict` succeeds for every retrieved tool; and filenames
produced from arXiv entry ids (digits, dots and a version letter, dots
replaced by underscores) always satisfy this precondition. -/
theorem claim10_roundtrip :
    (∀ (st : BuilderState) (ts : List Tool), get_tools st = some ts →
      (∀ p ∈ st.agentsDict, ∃ stem, p.1.data = stem ++ ".pdf".data ∧
          containsSub "tool_".data stem = false) →
      ∀ t ∈ ts, ∃ fn info, lookupA fn st.extraInfoDict = some info ∧
        reconstructPaperName (toolName t) = fn ∧
        (lookupA (reconstructPaperName (toolName t)) st.extraInfoDict).isSome = true) ∧
    (∀ seg : List Char, (∀ c ∈ seg, c.isDigit ∨ c = '.' ∨ c = 'v') →
      containsSub "tool_".data (sanitizeSeg seg) = false) := by
  constructor
  · intro st ts h hfn t ht
    obtain ⟨fn, info, hl, hre, _⟩ := get_tools_lookup st ts h hfn t ht
    refine ⟨fn, info, hl, hre, ?_⟩
    rw [hre, hl]
    rfl
  · exact sanitize_no_tool

/-- C10 witness. -/
theorem claim10_witness :
    (∃ fn info, lookupA fn exBuilder.extraInfoDict = some info ∧
      reconstructPaperName (toolName exTool1) = fn ∧
      (lookupA (reconstructPaperName (toolName exTool1))
        exBuilder.extraInfoDict).isSome = true) ∧
    containsSub "tool_".data (sanitizeSeg "2301.12345v1".data) = false := by
  constructor
  · exact claim10_roundtrip.1 exBuilder [exTool1, exTool2] rfl exBuilder_filenames
      exTool1 (List.mem_cons_self _ _)
  · exact claim10_roundtrip.2 "2301.12345v1".data (by decide)

end ArxivConsultant
